import Mathlib

/-!
Shallow embedding of `smriprep/interfaces/gifti.py`.

The file defines three nipype interface adapters:

* `MetricMath` — reads a GIFTI file, sets the image-level metadata key
  `AnatomicalStructurePrimary` from the hemisphere, sets the first data
  array's `Name` metadata, applies one of three element-wise operations
  (`invert`, `abs`, `bin`) to the first data array's values, and writes
  the result to `<hemi-lower>h.<metric>.native.shape.gii` in the working
  directory.
* `MetricFillHoles` / `MetricRemoveIslands` — declarative wrappers around
  `wb_command -metric-fill-holes` / `-metric-remove-islands`, whose
  command lines are assembled by the nipype `CommandLine` machinery from
  the `argstr` / `position` / `name_template` trait declarations.

GIFTI array values are modelled as integers (exact arithmetic: the
negation, absolute value and greater-than-zero threshold used here are
exact on the float32 metric data these interfaces process). Metadata
key-value stores are modelled as association lists.
-/

namespace SmriprepGifti

/-- Hemisphere input of `MetricMathInputSpec`: `traits.Enum('L', 'R', mandatory=True)`. -/
inductive Hemisphere where
  | L : Hemisphere
  | R : Hemisphere
deriving DecidableEq, Repr

/-- Operation input of `MetricMathInputSpec`: `traits.Enum('invert', 'abs', 'bin', mandatory=True)`. -/
inductive Operation where
  | invert : Operation
  | abs : Operation
  | bin : Operation
deriving DecidableEq, Repr

/-- Validation of the `operation` trait value: `traits.Enum('invert', 'abs', 'bin')`
accepts exactly these three strings and rejects every other value
(nipype/traits enum validation of the declaration at gifti.py lines 20-26). -/
def parseOperation (s : String) : Option Operation :=
  if s = "invert" then some Operation.invert
  else if s = "abs" then some Operation.abs
  else if s = "bin" then some Operation.bin
  else none

/-- A metadata key-value store (nibabel `GiftiMetaData` behaves as a dict). -/
abbrev MetaData := List (String × String)

/-- Dict assignment `meta[k] = v`: replace the value at an existing key in
place, or append the new pair. -/
def setKey : MetaData → String → String → MetaData
  | [], k, v => [(k, v)]
  | (k', v') :: rest, k, v =>
    if k' = k then (k, v) :: rest else (k', v') :: setKey rest k v

/-- Dict lookup `meta.get(k)`. -/
def getKey : MetaData → String → Option String
  | [], _ => none
  | (k', v') :: rest, k => if k' = k then some v' else getKey rest k

/-- A nibabel `GiftiDataArray`: the fields `MetricMath._run_interface`
reads and forwards to the replacement array (gifti.py lines 76-85).
Codes such as intent, encoding and endian are opaque numbers here. -/
structure GiftiDataArray where
  data : List Int
  intent : Nat
  datatype : String
  encoding : Nat
  endian : Nat
  coordsys : Option Nat
  ind_ord : Nat
  meta : MetaData
deriving DecidableEq, Repr

/-- A nibabel `GiftiImage`: image-level metadata plus data arrays. -/
structure GiftiImage where
  meta : MetaData
  darrays : List GiftiDataArray
deriving DecidableEq, Repr

/-- Validated inputs of `MetricMath` (`MetricMathInputSpec`): `subject_id`
and `metric` are optional (`isdefined` may be false for `subject_id`;
`metric` is a plain string input), `hemisphere`, `metric_file` and
`operation` are mandatory. -/
structure MetricMathInputs where
  subject_id : Option String
  hemisphere : Hemisphere
  metric : String
  metric_file : String
  operation : Operation
deriving DecidableEq, Repr

/-- The dict `{'L': 'CortexLeft', 'R': 'CortexRight'}[hemi]` (gifti.py line 58). -/
def hemiStructure : Hemisphere → String
  | Hemisphere.L => "CortexLeft"
  | Hemisphere.R => "CortexRight"

/-- The hemisphere tag as the string used in the map name. -/
def hemiStr : Hemisphere → String
  | Hemisphere.L => "L"
  | Hemisphere.R => "R"

/-- `hemi.lower()` (gifti.py line 87). -/
def hemiLower : Hemisphere → String
  | Hemisphere.L => "l"
  | Hemisphere.R => "r"

/-- The element-wise branch of `_run_interface` (gifti.py lines 65-73):
`abs(darray.data)`, `-darray.data`, and `darray.data > 0` (booleans
serialized as 1/0). -/
def applyOperation : Operation → List Int → List Int
  | Operation.abs, xs => xs.map (fun x => |x|)
  | Operation.invert, xs => xs.map (fun x => -x)
  | Operation.bin, xs => xs.map (fun x => if 0 < x then 1 else 0)

/-- The datatype of the replacement array: the input array's datatype,
overwritten with `'uint8'` in the `bin` branch (gifti.py lines 64, 74). -/
def resultDatatype (op : Operation) (dt : String) : String :=
  match op with
  | Operation.bin => "uint8"
  | _ => dt

/-- The map name `f'{subject}_{hemi}_{metric}'` with the `'sub-XYZ'`
default for an undefined subject (gifti.py lines 53-54, 62). -/
def mapName (inp : MetricMathInputs) : String :=
  inp.subject_id.getD "sub-XYZ" ++ "_" ++ hemiStr inp.hemisphere ++ "_" ++ inp.metric

/-- The replacement `GiftiDataArray` built at gifti.py lines 76-85: new
data and possibly-new datatype, every other attribute copied from the
input array, metadata with `Name` set. -/
def transformDarray (inp : MetricMathInputs) (d0 : GiftiDataArray) : GiftiDataArray :=
  { data := applyOperation inp.operation d0.data
    intent := d0.intent
    datatype := resultDatatype inp.operation d0.datatype
    encoding := d0.encoding
    endian := d0.endian
    coordsys := d0.coordsys
    ind_ord := d0.ind_ord
    meta := setKey d0.meta "Name" (mapName inp) }

/-- `os.path.join(runtime.cwd, name)` for a working directory without a
trailing separator and a relative file name (the case at gifti.py line 88). -/
def pathJoin (cwd name : String) : String :=
  cwd ++ "/" ++ name

/-- `MetricMath._run_interface` (gifti.py lines 51-91) on an already-read
image: returns the image written to disk and the output path, or `none`
when the image has no data arrays (`img.darrays[0]` raises IndexError). -/
def runMetricMath (inp : MetricMathInputs) (img : GiftiImage) (cwd : String) :
    Option (GiftiImage × String) :=
  match img.darrays with
  | [] => none
  | d0 :: rest =>
    some
      ({ meta := setKey img.meta "AnatomicalStructurePrimary" (hemiStructure inp.hemisphere)
         darrays := transformDarray inp d0 :: rest },
       pathJoin cwd (hemiLower inp.hemisphere ++ "h." ++ inp.metric ++ ".native.shape.gii"))

/-- The file system visible to input validation, as the set of existing
file paths. -/
abbrev FileSystem := List String

/-- An optional `File` input satisfies `mandatory=True, exists=True`
exactly when it is set and names an existing file. -/
def fileOk (fs : FileSystem) : Option String → Bool
  | none => false
  | some f => fs.contains f

/-- Unvalidated inputs of `MetricMath`, before the nipype trait machinery
has checked them: any input may still be unset. -/
structure MetricMathRawInputs where
  subject_id : Option String
  hemisphere : Option Hemisphere
  metric : Option String
  metric_file : Option String
  operation : Option Operation
deriving DecidableEq, Repr

/-- Modelled from the spec: the nipype input-validation machinery (it lives
in the nipype library, not in this repository) checks, before
`_run_interface` runs, that every mandatory input is set and that
`metric_file` (declared `File(exists=True, mandatory=True)`, gifti.py
line 19) names an existing file. -/
def metricMathInputsValid (fs : FileSystem) (inp : MetricMathRawInputs) : Bool :=
  inp.hemisphere.isSome && inp.operation.isSome && fileOk fs inp.metric_file

/-- Running `MetricMath` from unvalidated inputs: validation failures are
reported before the interface body runs, so no output file is produced
for them. The `Option.getD` defaults are never reached: validation
guarantees the mandatory inputs are set. -/
def runMetricMathChecked (fs : FileSystem) (inp : MetricMathRawInputs)
    (img : GiftiImage) (cwd : String) : Except String (GiftiImage × String) :=
  if metricMathInputsValid fs inp then
    match runMetricMath
        ⟨inp.subject_id, inp.hemisphere.getD Hemisphere.L, (inp.metric).getD "",
         (inp.metric_file).getD "", inp.operation.getD Operation.invert⟩ img cwd with
    | some r => Except.ok r
    | none => Except.error "IndexError: image has no data arrays"
  else Except.error "mandatory input not set or input file does not exist"

/-- Index of the last `.` in a character list, if any. -/
def lastDotIndex : List Char → Option Nat
  | [] => none
  | c :: rest =>
    match lastDotIndex rest with
    | some i => some (i + 1)
    | none => if c = '.' then some 0 else none

/-- The base name used by nipype name templating: `os.path.splitext`
drops the part after the last dot, except when everything before that
dot is dots (a leading-dot name such as `.gii` has no extension). -/
def stripExt (s : String) : String :=
  match lastDotIndex s.toList with
  | none => s
  | some i =>
    if (s.toList.take i).all (fun c => c = '.') then s
    else String.mk (s.toList.take i)

/-- Unvalidated inputs shared by `MetricFillHolesInputSpec` and
`MetricRemoveIslandsInputSpec`: `surface_file` and `metric_file` are
mandatory and must exist, `out_file` is derived from `metric_file` when
unset, `corrected_areas` is optional but must exist when set. -/
structure WrapperRawInputs where
  surface_file : Option String
  metric_file : Option String
  out_file : Option String
  corrected_areas : Option String
deriving DecidableEq, Repr

/-- Modelled from the spec: nipype validation of the wrapper input specs
(the machinery lives in nipype, not in this repository) — both mandatory
`exists=True` files must be set and exist, and `corrected_areas`
(`exists=True`, optional) must exist whenever it is set. -/
def wrapperInputsValid (fs : FileSystem) (inp : WrapperRawInputs) : Bool :=
  fileOk fs inp.surface_file && fileOk fs inp.metric_file &&
    (match inp.corrected_areas with
     | none => true
     | some f => fs.contains f)

/-- The output file name: the value of `out_file` when set, otherwise the
nipype `name_template`/`name_source`/`keep_extension=False` derivation
`name_template % splitext(metric_file)` (gifti.py lines 122-129 and
189-196), where `suffix` is `"_filled.shape.gii"` or
`"_noislands.shape.gii"`. -/
def deriveOutName (suffix : String) (inp : WrapperRawInputs) : String :=
  match inp.out_file with
  | some o => o
  | none => stripExt ((inp.metric_file).getD "") ++ suffix

/-- Modelled from the spec: the nipype `CommandLine` argument assembly
(library machinery, not repository code) places arguments with a
non-negative `position` first, sorted by position — here `surface_file`
(1), `metric_file` (2), `out_file` (3) — and appends arguments declared
without a position, here `corrected_areas` with
`argstr="-corrected-areas %s"`, after them. This matches the tool usage
documented in the input specs' docstrings, which list `<metric-out>` as
the third positional argument and `[-corrected-areas]` separately. -/
def wrapperArgs (suffix : String) (inp : WrapperRawInputs) : List String :=
  [(inp.surface_file).getD "", (inp.metric_file).getD "", deriveOutName suffix inp] ++
    (match inp.corrected_areas with
     | none => []
     | some ca => ["-corrected-areas " ++ ca])

/-- `MetricFillHoles.cmdline`: `_cmd = "wb_command -metric-fill-holes"`
followed by the assembled arguments, joined by spaces. -/
def metricFillHolesCmdline (inp : WrapperRawInputs) : String :=
  String.intercalate " "
    (["wb_command", "-metric-fill-holes"] ++ wrapperArgs "_filled.shape.gii" inp)

/-- `MetricRemoveIslands.cmdline`: `_cmd = "wb_command -metric-remove-islands"`
followed by the assembled arguments, joined by spaces. -/
def metricRemoveIslandsCmdline (inp : WrapperRawInputs) : String :=
  String.intercalate " "
    (["wb_command", "-metric-remove-islands"] ++ wrapperArgs "_noislands.shape.gii" inp)

/-- Outcome of running a wrapper: either validation fails before any
subprocess is spawned, or the subprocess is spawned with a command line. -/
inductive WrapperOutcome where
  | validationFailure : String → WrapperOutcome
  | spawned : String → WrapperOutcome
deriving DecidableEq, Repr

/-- Running `MetricFillHoles`: validation first, the subprocess only after
validation passes. -/
def runMetricFillHoles (fs : FileSystem) (inp : WrapperRawInputs) : WrapperOutcome :=
  if wrapperInputsValid fs inp then
    WrapperOutcome.spawned (metricFillHolesCmdline inp)
  else
    WrapperOutcome.validationFailure "mandatory input not set or input file does not exist"

/-- Running `MetricRemoveIslands`: validation first, the subprocess only
after validation passes. -/
def runMetricRemoveIslands (fs : FileSystem) (inp : WrapperRawInputs) : WrapperOutcome :=
  if wrapperInputsValid fs inp then
    WrapperOutcome.spawned (metricRemoveIslandsCmdline inp)
  else
    WrapperOutcome.validationFailure "mandatory input not set or input file does not exist"

/-- Lookup after assignment at the same key yields the assigned value. -/
theorem getKey_setKey_same (m : MetaData) (k v : String) :
    getKey (setKey m k v) k = some v := by
  induction m with
  | nil => simp [setKey, getKey]
  | cons p rest ih =>
    obtain ⟨a, b⟩ := p
    by_cases h : a = k
    · simp [setKey, getKey, h]
    · simp [setKey, getKey, h, ih]

/-- Lookup after assignment at a different key is unchanged. -/
theorem getKey_setKey_ne (m : MetaData) (k v k' : String) (h : k' ≠ k) :
    getKey (setKey m k v) k' = getKey m k' := by
  induction m with
  | nil => simp [setKey, getKey, Ne.symm h]
  | cons p rest ih =>
    obtain ⟨a, b⟩ := p
    by_cases hak : a = k
    · subst hak
      simp [setKey, getKey, Ne.symm h]
    · by_cases hak' : a = k'
      · simp [setKey, getKey, hak, hak', h]
      · simp [setKey, getKey, hak, hak', ih]

/-- Concrete sample data array for witnesses. -/
def sampleDarray : GiftiDataArray :=
  ⟨[-2, 0, 3], 2005, "float32", 2, 1, none, 1, [("Units", "mm")]⟩

/-- Concrete sample image for witnesses. -/
def sampleImg : GiftiImage := ⟨[("Date", "2026")], [sampleDarray]⟩

/-- Concrete sample `MetricMath` inputs for witnesses. -/
def sampleInp : MetricMathInputs :=
  ⟨none, Hemisphere.L, "thickness", "in.gii", Operation.invert⟩

/-- The data array `runMetricMath` produces from the sample inputs. -/
def sampleOutDarray : GiftiDataArray :=
  ⟨[2, 0, -3], 2005, "float32", 2, 1, none, 1,
   [("Units", "mm"), ("Name", "sub-XYZ_L_thickness")]⟩

/-- The image `runMetricMath` produces from the sample inputs. -/
def sampleOut : GiftiImage :=
  ⟨[("Date", "2026"), ("AnatomicalStructurePrimary", "CortexLeft")],
   [sampleOutDarray]⟩

/-- A second concrete `MetricMath` input with the same hemisphere and
metric as `sampleInp` but a different subject, operation and input file. -/
def sampleInp2 : MetricMathInputs :=
  ⟨some "sub-01", Hemisphere.L, "thickness", "other.gii", Operation.bin⟩

/-- A second concrete image with different metadata and data. -/
def sampleImg2 : GiftiImage := ⟨[], [⟨[5], 0, "int32", 0, 0, none, 0, []⟩]⟩

/-- The image `runMetricMath` produces from the second sample inputs. -/
def sampleOut2 : GiftiImage :=
  ⟨[("AnatomicalStructurePrimary", "CortexLeft")],
   [⟨[1], 0, "uint8", 0, 0, none, 0, [("Name", "sub-01_L_thickness")]⟩]⟩

/-- The output path `runMetricMath` produces from the sample inputs. -/
def samplePath : String := "/wd/lh.thickness.native.shape.gii"

/-- C1: applied to a first data array holding `[-2, 0, 3]`, `invert`
produces `[2, 0, -3]`, `abs` produces `[2, 0, 3]`, and `bin` produces
`[0, 0, 1]` with the output datatype set to `uint8`; in general `invert`
negates each element, `abs` takes absolute values, and `bin` maps each
element to 1 when positive and 0 otherwise. -/
theorem metricMath_operations (inp : MetricMathInputs) (img : GiftiImage)
    (cwd path : String) (out : GiftiImage) (d0 : GiftiDataArray)
    (rest : List GiftiDataArray) (hda : img.darrays = d0 :: rest)
    (hrun : runMetricMath inp img cwd = some (out, path)) :
    (∃ d0', out.darrays = d0' :: rest ∧
      (inp.operation = Operation.invert → d0'.data = d0.data.map (fun x => -x)) ∧
      (inp.operation = Operation.abs → d0'.data = d0.data.map (fun x => |x|)) ∧
      (inp.operation = Operation.bin →
        d0'.data = d0.data.map (fun x => if 0 < x then 1 else 0) ∧
        d0'.datatype = "uint8")) ∧
    applyOperation Operation.invert [-2, 0, 3] = [2, 0, -3] ∧
    applyOperation Operation.abs [-2, 0, 3] = [2, 0, 3] ∧
    applyOperation Operation.bin [-2, 0, 3] = [0, 0, 1] ∧
    resultDatatype Operation.bin "float32" = "uint8" := by
  refine ⟨?_, by decide, by decide, by decide, rfl⟩
  simp only [runMetricMath, hda, Option.some.injEq, Prod.mk.injEq] at hrun
  obtain ⟨hout, hpath⟩ := hrun
  refine ⟨transformDarray inp d0, ?_, ?_, ?_, ?_⟩
  · rw [← hout]
  · intro hop
    simp [transformDarray, applyOperation, hop]
  · intro hop
    simp [transformDarray, applyOperation, hop]
  · intro hop
    simp [transformDarray, applyOperation, resultDatatype, hop]

/-- C1 witness at the sample inputs. -/
theorem metricMath_operations_witness :
    (∃ d0', sampleOut.darrays = d0' :: ([] : List GiftiDataArray) ∧
      (sampleInp.operation = Operation.invert →
        d0'.data = sampleDarray.data.map (fun x => -x)) ∧
      (sampleInp.operation = Operation.abs →
        d0'.data = sampleDarray.data.map (fun x => |x|)) ∧
      (sampleInp.operation = Operation.bin →
        d0'.data = sampleDarray.data.map (fun x => if 0 < x then 1 else 0) ∧
        d0'.datatype = "uint8")) ∧
    applyOperation Operation.invert [-2, 0, 3] = [2, 0, -3] ∧
    applyOperation Operation.abs [-2, 0, 3] = [2, 0, 3] ∧
    applyOperation Operation.bin [-2, 0, 3] = [0, 0, 1] ∧
    resultDatatype Operation.bin "float32" = "uint8" :=
  metricMath_operations sampleInp sampleImg "/wd" samplePath sampleOut sampleDarray []
    (by decide) (by decide)

/-- C2: the operation selector is a closed enumeration: any string other
than `invert`, `abs`, `bin` is rejected by validation, and an interface
run whose operation input did not validate fails with an error instead of
producing an output. -/
theorem operation_selector_rejected (s : String)
    (h1 : s ≠ "invert") (h2 : s ≠ "abs") (h3 : s ≠ "bin") :
    parseOperation s = none ∧
    ∀ (fs : FileSystem) (inp : MetricMathRawInputs) (img : GiftiImage) (cwd : String),
      inp.operation = none →
      runMetricMathChecked fs inp img cwd =
        Except.error "mandatory input not set or input file does not exist" := by
  constructor
  · simp [parseOperation, h1, h2, h3]
  · intro fs inp img cwd hop
    simp [runMetricMathChecked, metricMathInputsValid, hop]

/-- C2 witness at the unrecognized selector string `sqrt`. -/
theorem operation_selector_rejected_witness :
    parseOperation "sqrt" = none ∧
    ∀ (fs : FileSystem) (inp : MetricMathRawInputs) (img : GiftiImage) (cwd : String),
      inp.operation = none →
      runMetricMathChecked fs inp img cwd =
        Except.error "mandatory input not set or input file does not exist" :=
  operation_selector_rejected "sqrt" (by decide) (by decide) (by decide)

/-- C3: a missing mandatory input file (unset, or not existing on the
file system) makes both wrapper interfaces fail validation — so no
subprocess is spawned — and makes `MetricMath` fail validation — so no
output is produced. -/
theorem missing_input_fails_before_subprocess (fs : FileSystem)
    (winp : WrapperRawInputs) (minp : MetricMathRawInputs)
    (img : GiftiImage) (cwd : String)
    (hw : fileOk fs winp.surface_file = false ∨ fileOk fs winp.metric_file = false)
    (hm : fileOk fs minp.metric_file = false) :
    (∃ msg, runMetricFillHoles fs winp = WrapperOutcome.validationFailure msg) ∧
    (∃ msg, runMetricRemoveIslands fs winp = WrapperOutcome.validationFailure msg) ∧
    (∃ msg, runMetricMathChecked fs minp img cwd = Except.error msg) := by
  have hv : wrapperInputsValid fs winp = false := by
    rcases hw with h | h <;> simp [wrapperInputsValid, h]
  have hv2 : metricMathInputsValid fs minp = false := by
    simp [metricMathInputsValid, hm]
  refine ⟨⟨"mandatory input not set or input file does not exist", ?_⟩,
          ⟨"mandatory input not set or input file does not exist", ?_⟩,
          ⟨"mandatory input not set or input file does not exist", ?_⟩⟩
  · simp [runMetricFillHoles, hv]
  · simp [runMetricRemoveIslands, hv]
  · simp [runMetricMathChecked, hv2]

/-- C3 witness: an empty file system, wrapper inputs whose surface file is
set but does not exist, and `MetricMath` inputs whose metric file is unset. -/
theorem missing_input_fails_before_subprocess_witness :
    (∃ msg, runMetricFillHoles []
      ⟨some "lh.midthickness.surf.gii", some "lh.roi.shape.gii", none, none⟩ =
        WrapperOutcome.validationFailure msg) ∧
    (∃ msg, runMetricRemoveIslands []
      ⟨some "lh.midthickness.surf.gii", some "lh.roi.shape.gii", none, none⟩ =
        WrapperOutcome.validationFailure msg) ∧
    (∃ msg, runMetricMathChecked []
      ⟨none, some Hemisphere.L, some "thickness", none, some Operation.bin⟩
      sampleImg "/wd" = Except.error msg) :=
  missing_input_fails_before_subprocess []
    ⟨some "lh.midthickness.surf.gii", some "lh.roi.shape.gii", none, none⟩
    ⟨none, some Hemisphere.L, some "thickness", none, some Operation.bin⟩
    sampleImg "/wd" (Or.inl (by decide)) (by decide)

/-- C4: with `out_file` unset, the fill-holes wrapper derives its output
name as `<base>_filled.shape.gii` and the remove-islands wrapper as
`<base>_noislands.shape.gii` from the input metric file; in both argument
lists the surface file and the input metric file appear, in that order,
before the output path; on `lh.roi.shape.gii` the derived names and full
command lines match the documented examples. -/
theorem wrapper_output_names (inp : WrapperRawInputs) (m : String)
    (hout : inp.out_file = none) (hm : inp.metric_file = some m) :
    deriveOutName "_filled.shape.gii" inp = stripExt m ++ "_filled.shape.gii" ∧
    deriveOutName "_noislands.shape.gii" inp = stripExt m ++ "_noislands.shape.gii" ∧
    (∃ extra, wrapperArgs "_filled.shape.gii" inp =
      [(inp.surface_file).getD "", m, stripExt m ++ "_filled.shape.gii"] ++ extra) ∧
    (∃ extra, wrapperArgs "_noislands.shape.gii" inp =
      [(inp.surface_file).getD "", m, stripExt m ++ "_noislands.shape.gii"] ++ extra) ∧
    stripExt "lh.roi.shape.gii" ++ "_filled.shape.gii" = "lh.roi.shape_filled.shape.gii" ∧
    stripExt "lh.roi.shape.gii" ++ "_noislands.shape.gii" = "lh.roi.shape_noislands.shape.gii" ∧
    metricFillHolesCmdline
      ⟨some "lh.midthickness.surf.gii", some "lh.roi.shape.gii", none, none⟩ =
      "wb_command -metric-fill-holes lh.midthickness.surf.gii lh.roi.shape.gii lh.roi.shape_filled.shape.gii" ∧
    metricRemoveIslandsCmdline
      ⟨some "lh.midthickness.surf.gii", some "lh.roi.shape.gii", none, none⟩ =
      "wb_command -metric-remove-islands lh.midthickness.surf.gii lh.roi.shape.gii lh.roi.shape_noislands.shape.gii" := by
  refine ⟨?_, ?_, ?_, ?_, by decide, by decide, by decide, by decide⟩
  · simp [deriveOutName, hout, hm]
  · simp [deriveOutName, hout, hm]
  · refine ⟨(match inp.corrected_areas with
      | none => []
      | some ca => ["-corrected-areas " ++ ca]), ?_⟩
    simp [wrapperArgs, deriveOutName, hout, hm]
  · refine ⟨(match inp.corrected_areas with
      | none => []
      | some ca => ["-corrected-areas " ++ ca]), ?_⟩
    simp [wrapperArgs, deriveOutName, hout, hm]

/-- C4 witness at the documented example inputs. -/
theorem wrapper_output_names_witness :
    deriveOutName "_filled.shape.gii"
      ⟨some "lh.midthickness.surf.gii", some "lh.roi.shape.gii", none, none⟩ =
      stripExt "lh.roi.shape.gii" ++ "_filled.shape.gii" ∧
    deriveOutName "_noislands.shape.gii"
      ⟨some "lh.midthickness.surf.gii", some "lh.roi.shape.gii", none, none⟩ =
      stripExt "lh.roi.shape.gii" ++ "_noislands.shape.gii" ∧
    (∃ extra, wrapperArgs "_filled.shape.gii"
      ⟨some "lh.midthickness.surf.gii", some "lh.roi.shape.gii", none, none⟩ =
      [(Option.some "lh.midthickness.surf.gii").getD "", "lh.roi.shape.gii",
       stripExt "lh.roi.shape.gii" ++ "_filled.shape.gii"] ++ extra) ∧
    (∃ extra, wrapperArgs "_noislands.shape.gii"
      ⟨some "lh.midthickness.surf.gii", some "lh.roi.shape.gii", none, none⟩ =
      [(Option.some "lh.midthickness.surf.gii").getD "", "lh.roi.shape.gii",
       stripExt "lh.roi.shape.gii" ++ "_noislands.shape.gii"] ++ extra) ∧
    stripExt "lh.roi.shape.gii" ++ "_filled.shape.gii" = "lh.roi.shape_filled.shape.gii" ∧
    stripExt "lh.roi.shape.gii" ++ "_noislands.shape.gii" = "lh.roi.shape_noislands.shape.gii" ∧
    metricFillHolesCmdline
      ⟨some "lh.midthickness.surf.gii", some "lh.roi.shape.gii", none, none⟩ =
      "wb_command -metric-fill-holes lh.midthickness.surf.gii lh.roi.shape.gii lh.roi.shape_filled.shape.gii" ∧
    metricRemoveIslandsCmdline
      ⟨some "lh.midthickness.surf.gii", some "lh.roi.shape.gii", none, none⟩ =
      "wb_command -metric-remove-islands lh.midthickness.surf.gii lh.roi.shape.gii lh.roi.shape_noislands.shape.gii" :=
  wrapper_output_names
    ⟨some "lh.midthickness.surf.gii", some "lh.roi.shape.gii", none, none⟩
    "lh.roi.shape.gii" rfl rfl

/-- C5: the output image's `AnatomicalStructurePrimary` metadata equals
`CortexLeft` for hemisphere `L` and `CortexRight` for hemisphere `R`,
and no other value ever occurs. -/
theorem metricMath_anatomical_structure (inp : MetricMathInputs) (img : GiftiImage)
    (cwd : String) (out : GiftiImage) (path : String)
    (hrun : runMetricMath inp img cwd = some (out, path)) :
    getKey out.meta "AnatomicalStructurePrimary" = some (hemiStructure inp.hemisphere) ∧
    hemiStructure Hemisphere.L = "CortexLeft" ∧
    hemiStructure Hemisphere.R = "CortexRight" ∧
    (getKey out.meta "AnatomicalStructurePrimary" = some "CortexLeft" ∨
     getKey out.meta "AnatomicalStructurePrimary" = some "CortexRight") := by
  cases hda : img.darrays with
  | nil => simp [runMetricMath, hda] at hrun
  | cons d0 rest =>
    simp only [runMetricMath, hda, Option.some.injEq, Prod.mk.injEq] at hrun
    obtain ⟨hout, hpath⟩ := hrun
    subst hout
    refine ⟨getKey_setKey_same _ _ _, rfl, rfl, ?_⟩
    cases hh : inp.hemisphere
    · exact Or.inl (getKey_setKey_same _ _ _)
    · exact Or.inr (getKey_setKey_same _ _ _)

/-- C5 witness at the sample inputs. -/
theorem metricMath_anatomical_structure_witness :
    getKey sampleOut.meta "AnatomicalStructurePrimary" =
      some (hemiStructure sampleInp.hemisphere) ∧
    hemiStructure Hemisphere.L = "CortexLeft" ∧
    hemiStructure Hemisphere.R = "CortexRight" ∧
    (getKey sampleOut.meta "AnatomicalStructurePrimary" = some "CortexLeft" ∨
     getKey sampleOut.meta "AnatomicalStructurePrimary" = some "CortexRight") :=
  metricMath_anatomical_structure sampleInp sampleImg "/wd" sampleOut samplePath
    (by decide)

/-- C6: the output's first data array carries the map-name metadata
`<subject>_<hemisphere>_<metric>`, with subject defaulting to `sub-XYZ`
when unset; hemisphere `L` and metric `thickness` with no subject give
`sub-XYZ_L_thickness`. -/
theorem metricMath_map_name (inp : MetricMathInputs) (img : GiftiImage)
    (cwd : String) (out : GiftiImage) (path : String) (d0' : GiftiDataArray)
    (rest' : List GiftiDataArray)
    (hrun : runMetricMath inp img cwd = some (out, path))
    (hout' : out.darrays = d0' :: rest') :
    getKey d0'.meta "Name" =
      some ((inp.subject_id).getD "sub-XYZ" ++ "_" ++
        hemiStr inp.hemisphere ++ "_" ++ inp.metric) ∧
    (inp.subject_id = none → inp.hemisphere = Hemisphere.L →
      inp.metric = "thickness" →
      getKey d0'.meta "Name" = some "sub-XYZ_L_thickness") := by
  cases hda : img.darrays with
  | nil => simp [runMetricMath, hda] at hrun
  | cons d0 rest =>
    simp only [runMetricMath, hda, Option.some.injEq, Prod.mk.injEq] at hrun
    obtain ⟨hout, hpath⟩ := hrun
    subst hout
    have h2 : transformDarray inp d0 :: rest = d0' :: rest' := hout'
    injection h2 with hd ht
    subst hd
    constructor
    · exact getKey_setKey_same _ _ _
    · intro hs hh hm2
      have hbase := getKey_setKey_same d0.meta "Name" (mapName inp)
      have hmn : mapName inp = "sub-XYZ_L_thickness" := by
        unfold mapName
        rw [hs, hh, hm2]
        decide
      exact hmn ▸ hbase

/-- C6 witness at the sample inputs. -/
theorem metricMath_map_name_witness :
    getKey sampleOutDarray.meta "Name" =
      some ((sampleInp.subject_id).getD "sub-XYZ" ++ "_" ++
        hemiStr sampleInp.hemisphere ++ "_" ++ sampleInp.metric) ∧
    (sampleInp.subject_id = none → sampleInp.hemisphere = Hemisphere.L →
      sampleInp.metric = "thickness" →
      getKey sampleOutDarray.meta "Name" = some "sub-XYZ_L_thickness") :=
  metricMath_map_name sampleInp sampleImg "/wd" sampleOut samplePath
    sampleOutDarray [] (by decide) (by decide)

/-- C7: the output path is the working directory joined with
`<hemi-lower>h.<metric>.native.shape.gii`; it depends only on the
hemisphere and metric inputs — two runs agreeing on those produce the
same path whatever their subject, operation, input file or image data —
and hemisphere `L` with metric `thickness` gives
`lh.thickness.native.shape.gii`. -/
theorem metricMath_output_path (inp₁ inp₂ : MetricMathInputs)
    (img₁ img₂ : GiftiImage) (cwd : String) (out₁ out₂ : GiftiImage)
    (p₁ p₂ : String)
    (h1 : runMetricMath inp₁ img₁ cwd = some (out₁, p₁))
    (h2 : runMetricMath inp₂ img₂ cwd = some (out₂, p₂))
    (hh : inp₁.hemisphere = inp₂.hemisphere) (hm : inp₁.metric = inp₂.metric) :
    p₁ = pathJoin cwd
      (hemiLower inp₁.hemisphere ++ "h." ++ inp₁.metric ++ ".native.shape.gii") ∧
    p₁ = p₂ ∧
    (inp₁.hemisphere = Hemisphere.L → inp₁.metric = "thickness" →
      p₁ = pathJoin cwd "lh.thickness.native.shape.gii") := by
  cases hda1 : img₁.darrays with
  | nil => simp [runMetricMath, hda1] at h1
  | cons d0 rest =>
    cases hda2 : img₂.darrays with
    | nil => simp [runMetricMath, hda2] at h2
    | cons e0 rest2 =>
      simp only [runMetricMath, hda1, Option.some.injEq, Prod.mk.injEq] at h1
      simp only [runMetricMath, hda2, Option.some.injEq, Prod.mk.injEq] at h2
      obtain ⟨ho1, hp1⟩ := h1
      obtain ⟨ho2, hp2⟩ := h2
      refine ⟨hp1.symm, ?_, ?_⟩
      · rw [← hp1, ← hp2, hh, hm]
      · intro hL hT
        have hstr : hemiLower Hemisphere.L ++ "h." ++ "thickness" ++
            ".native.shape.gii" = "lh.thickness.native.shape.gii" := by decide
        rw [← hp1, hL, hT, hstr]

/-- C7 witness: two sample runs agreeing on hemisphere and metric only. -/
theorem metricMath_output_path_witness :
    samplePath = pathJoin "/wd"
      (hemiLower sampleInp.hemisphere ++ "h." ++ sampleInp.metric ++
        ".native.shape.gii") ∧
    samplePath = samplePath ∧
    (sampleInp.hemisphere = Hemisphere.L → sampleInp.metric = "thickness" →
      samplePath = pathJoin "/wd" "lh.thickness.native.shape.gii") :=
  metricMath_output_path sampleInp sampleInp2 sampleImg sampleImg2 "/wd"
    sampleOut sampleOut2 samplePath samplePath (by decide) (by decide) rfl rfl

/-- The fill-holes command line as the spec's fixed template writes it
(a comparison definition following the spec's words, not the source):
the optional `-corrected-areas <area-metric>` flag placed between the
input metric and the output path. -/
def fillHolesCmdlineSpecTemplate (inp : WrapperRawInputs) : String :=
  String.intercalate " "
    (["wb_command", "-metric-fill-holes", (inp.surface_file).getD "",
      (inp.metric_file).getD ""] ++
      (match inp.corrected_areas with
       | none => []
       | some ca => ["-corrected-areas " ++ ca]) ++
      [deriveOutName "_filled.shape.gii" inp])

/-- C8 counterexample: with `corrected_areas` provided, the constructed
command line places the flag after the output path, not between the input
metric and the output path as the spec's template states. -/
theorem corrected_areas_flag_position_counterexample :
    metricFillHolesCmdline
      ⟨some "surf.gii", some "roi.shape.gii", none, some "area.shape.gii"⟩ ≠
      fillHolesCmdlineSpecTemplate
        ⟨some "surf.gii", some "roi.shape.gii", none, some "area.shape.gii"⟩ ∧
    metricFillHolesCmdline
      ⟨some "surf.gii", some "roi.shape.gii", none, some "area.shape.gii"⟩ =
      "wb_command -metric-fill-holes surf.gii roi.shape.gii roi.shape_filled.shape.gii -corrected-areas area.shape.gii" ∧
    fillHolesCmdlineSpecTemplate
      ⟨some "surf.gii", some "roi.shape.gii", none, some "area.shape.gii"⟩ =
      "wb_command -metric-fill-holes surf.gii roi.shape.gii -corrected-areas area.shape.gii roi.shape_filled.shape.gii" :=
  ⟨by decide, by decide, by decide⟩

/-- C8 amended: in both wrappers the `-corrected-areas <area-metric>`
flag is present in the command line exactly when the `corrected_areas`
input is provided, and it is placed after the output path — the rest of
the command line follows the template
`wb_command -metric-fill-holes <surface> <metric-in> <metric-out>`
(respectively `-metric-remove-islands`). -/
theorem corrected_areas_flag_presence (inp : WrapperRawInputs) (ca : String)
    (hca : inp.corrected_areas = some ca) :
    metricFillHolesCmdline inp = String.intercalate " "
      ["wb_command", "-metric-fill-holes", (inp.surface_file).getD "",
       (inp.metric_file).getD "", deriveOutName "_filled.shape.gii" inp,
       "-corrected-areas " ++ ca] ∧
    metricRemoveIslandsCmdline inp = String.intercalate " "
      ["wb_command", "-metric-remove-islands", (inp.surface_file).getD "",
       (inp.metric_file).getD "", deriveOutName "_noislands.shape.gii" inp,
       "-corrected-areas " ++ ca] ∧
    (∀ inp' : WrapperRawInputs, inp'.corrected_areas = none →
      metricFillHolesCmdline inp' = String.intercalate " "
        ["wb_command", "-metric-fill-holes", (inp'.surface_file).getD "",
         (inp'.metric_file).getD "", deriveOutName "_filled.shape.gii" inp'] ∧
      metricRemoveIslandsCmdline inp' = String.intercalate " "
        ["wb_command", "-metric-remove-islands", (inp'.surface_file).getD "",
         (inp'.metric_file).getD "", deriveOutName "_noislands.shape.gii" inp']) := by
  refine ⟨?_, ?_, ?_⟩
  · simp [metricFillHolesCmdline, wrapperArgs, hca]
  · simp [metricRemoveIslandsCmdline, wrapperArgs, hca]
  · intro inp' hnone
    constructor
    · simp [metricFillHolesCmdline, wrapperArgs, hnone]
    · simp [metricRemoveIslandsCmdline, wrapperArgs, hnone]

/-- C8 witness at a concrete input providing `corrected_areas`. -/
theorem corrected_areas_flag_presence_witness :
    metricFillHolesCmdline
      ⟨some "surf.gii", some "roi.shape.gii", none, some "area.shape.gii"⟩ =
      String.intercalate " "
        ["wb_command", "-metric-fill-holes",
         (Option.some "surf.gii").getD "", (Option.some "roi.shape.gii").getD "",
         deriveOutName "_filled.shape.gii"
           ⟨some "surf.gii", some "roi.shape.gii", none, some "area.shape.gii"⟩,
         "-corrected-areas " ++ "area.shape.gii"] ∧
    metricRemoveIslandsCmdline
      ⟨some "surf.gii", some "roi.shape.gii", none, some "area.shape.gii"⟩ =
      String.intercalate " "
        ["wb_command", "-metric-remove-islands",
         (Option.some "surf.gii").getD "", (Option.some "roi.shape.gii").getD "",
         deriveOutName "_noislands.shape.gii"
           ⟨some "surf.gii", some "roi.shape.gii", none, some "area.shape.gii"⟩,
         "-corrected-areas " ++ "area.shape.gii"] ∧
    (∀ inp' : WrapperRawInputs, inp'.corrected_areas = none →
      metricFillHolesCmdline inp' = String.intercalate " "
        ["wb_command", "-metric-fill-holes", (inp'.surface_file).getD "",
         (inp'.metric_file).getD "", deriveOutName "_filled.shape.gii" inp'] ∧
      metricRemoveIslandsCmdline inp' = String.intercalate " "
        ["wb_command", "-metric-remove-islands", (inp'.surface_file).getD "",
         (inp'.metric_file).getD "", deriveOutName "_noislands.shape.gii" inp']) :=
  corrected_areas_flag_presence
    ⟨some "surf.gii", some "roi.shape.gii", none, some "area.shape.gii"⟩
    "area.shape.gii" rfl

/-- C9: for `invert` and `abs` the replacement first data array keeps the
input array's datatype, intent, encoding, endianness, coordinate system
and index ordering; `bin` changes only the datatype, to `uint8`, and
keeps all the other listed attributes. -/
theorem metricMath_preserves_array_attributes (inp : MetricMathInputs)
    (img : GiftiImage) (cwd : String) (out : GiftiImage) (path : String)
    (d0 : GiftiDataArray) (rest : List GiftiDataArray)
    (hda : img.darrays = d0 :: rest)
    (hrun : runMetricMath inp img cwd = some (out, path)) :
    ∃ d0', out.darrays = d0' :: rest ∧
      d0'.intent = d0.intent ∧
      d0'.encoding = d0.encoding ∧
      d0'.endian = d0.endian ∧
      d0'.coordsys = d0.coordsys ∧
      d0'.ind_ord = d0.ind_ord ∧
      (inp.operation = Operation.invert → d0'.datatype = d0.datatype) ∧
      (inp.operation = Operation.abs → d0'.datatype = d0.datatype) ∧
      (inp.operation = Operation.bin → d0'.datatype = "uint8") := by
  simp only [runMetricMath, hda, Option.some.injEq, Prod.mk.injEq] at hrun
  obtain ⟨hout, hpath⟩ := hrun
  refine ⟨transformDarray inp d0, ?_, rfl, rfl, rfl, rfl, rfl, ?_, ?_, ?_⟩
  · rw [← hout]
  · intro hop
    simp [transformDarray, resultDatatype, hop]
  · intro hop
    simp [transformDarray, resultDatatype, hop]
  · intro hop
    simp [transformDarray, resultDatatype, hop]

/-- C9 witness at the sample inputs. -/
theorem metricMath_preserves_array_attributes_witness :
    ∃ d0', sampleOut.darrays = d0' :: ([] : List GiftiDataArray) ∧
      d0'.intent = sampleDarray.intent ∧
      d0'.encoding = sampleDarray.encoding ∧
      d0'.endian = sampleDarray.endian ∧
      d0'.coordsys = sampleDarray.coordsys ∧
      d0'.ind_ord = sampleDarray.ind_ord ∧
      (sampleInp.operation = Operation.invert → d0'.datatype = sampleDarray.datatype) ∧
      (sampleInp.operation = Operation.abs → d0'.datatype = sampleDarray.datatype) ∧
      (sampleInp.operation = Operation.bin → d0'.datatype = "uint8") :=
  metricMath_preserves_array_attributes sampleInp sampleImg "/wd" sampleOut
    samplePath sampleDarray [] (by decide) (by decide)

/-- C10: the run changes only the `AnatomicalStructurePrimary` image
metadata key — every other image metadata key reads the same as in the
input — and replaces only the first data array: the data arrays beyond
the first, and their count, are unchanged. -/
theorem metricMath_frame (inp : MetricMathInputs) (img : GiftiImage)
    (cwd : String) (out : GiftiImage) (path : String)
    (hrun : runMetricMath inp img cwd = some (out, path)) :
    (∀ k, k ≠ "AnatomicalStructurePrimary" →
      getKey out.meta k = getKey img.meta k) ∧
    out.darrays.tail = img.darrays.tail ∧
    out.darrays.length = img.darrays.length := by
  cases hda : img.darrays with
  | nil => simp [runMetricMath, hda] at hrun
  | cons d0 rest =>
    simp only [runMetricMath, hda, Option.some.injEq, Prod.mk.injEq] at hrun
    obtain ⟨hout, hpath⟩ := hrun
    subst hout
    refine ⟨?_, ?_, ?_⟩
    · intro k hk
      exact getKey_setKey_ne _ _ _ _ hk
    · rfl
    · rfl

/-- C10 witness at the sample inputs. -/
theorem metricMath_frame_witness :
    (∀ k, k ≠ "AnatomicalStructurePrimary" →
      getKey sampleOut.meta k = getKey sampleImg.meta k) ∧
    sampleOut.darrays.tail = sampleImg.darrays.tail ∧
    sampleOut.darrays.length = sampleImg.darrays.length :=
  metricMath_frame sampleInp sampleImg "/wd" sampleOut samplePath (by decide)

end SmriprepGifti
